import Mathlib

/-!
Verification of the Fleet Maintenance Scheduling Optimizer
(`maintenance_optimizer.py`).

The embedding models the numeric pipeline over `ℚ` (the claims at stake do
not hinge on binary floating-point rounding).  Vehicle counters are natural
numbers, as in the sample data.  Library calls that are not part of the
repository (`scipy.optimize.linear_sum_assignment`, sklearn's `KMeans`) are
modelled from their documented contracts, as noted on each definition.
-/

namespace ATV

/-- A vehicle record as consumed by `MaintenanceOptimizer`: identity plus the
three raw maintenance counters (`total_faults`, `days_since_last_maintenance`,
`critical_system_faults`). -/
structure Vehicle where
  vehicle_id : ℕ
  total_faults : ℕ
  days_since_last_maintenance : ℕ
  critical_system_faults : ℕ
deriving DecidableEq, Repr

/-- `pandas.Series.max` on a column of non-negative integers: the maximum of
the list (`0` on the empty list, where pandas would give NaN; the callers
below only use it through the NaN guard). -/
def seriesMax (l : List ℕ) : ℕ := l.foldr max 0

/-- The normalization actually performed by `calculate_priority_score`
(lines 21-22 of `maintenance_optimizer.py`): the raw value divided by the
column maximum.  (Note: this is division by the max, not min-max scaling.) -/
def normalize (l : List ℕ) (value : ℕ) : ℚ := (value : ℚ) / (seriesMax l : ℚ)

/-- The `total_faults` column of a vehicle collection. -/
def faultsCol (vs : List Vehicle) : List ℕ := vs.map Vehicle.total_faults

/-- The `days_since_last_maintenance` column of a vehicle collection. -/
def ageCol (vs : List Vehicle) : List ℕ :=
  vs.map Vehicle.days_since_last_maintenance

/-- The weighted score of line 20-24 of `maintenance_optimizer.py`:
`0.4 * faults/max_faults + 0.3 * age/max_age + 0.3 * critical_system_faults`
(the critical-fault term is added raw). -/
def priorityScore (vs : List Vehicle) (v : Vehicle) : ℚ :=
  (2/5) * normalize (faultsCol vs) v.total_faults
    + (3/10) * normalize (ageCol vs) v.days_since_last_maintenance
    + (3/10) * (v.critical_system_faults : ℚ)

/-- `MaintenanceOptimizer.calculate_priority_score`: annotates every vehicle
of the collection with its priority score.  A score is `none` exactly when
the Python computation yields NaN: the counters are non-negative, so a zero
column maximum means the whole column is zero and the division is `0/0`. -/
def calculate_priority_score (vs : List Vehicle) :
    List (Vehicle × Option ℚ) :=
  let degenerate := seriesMax (faultsCol vs) = 0 ∨ seriesMax (ageCol vs) = 0
  vs.map (fun v =>
    (v, if degenerate then none else some (priorityScore vs v)))

/-- A vehicle row as seen by `optimize_schedule`: id, the already-computed
`priority_score`, and the `maintenance_cluster` label. -/
structure ScoredVehicle where
  vehicle_id : ℕ
  priority_score : ℚ
  maintenance_cluster : ℤ
deriving DecidableEq, Repr

/-- One row of the schedule DataFrame built in lines 62-70 of
`maintenance_optimizer.py`. -/
structure Assignment where
  vehicle : ℕ
  time_slot : ℕ
  priority_score : ℚ
  maintenance_cluster : ℤ
deriving DecidableEq, Repr

/-- `vehicle_data.iloc[i]['priority_score']` (the solver only queries indices
below the row count, so the default is never reached there). -/
def scoreAt (vs : List ScoredVehicle) (i : ℕ) : ℚ :=
  ((vs.get? i).map ScoredVehicle.priority_score).getD 0

/-- The cost matrix of lines 48-56: entry `(i, j)` is
`(1 - priority_score_i) + j * 0.1 * priority_score_i`. -/
def cost_matrix (vs : List ScoredVehicle) (i j : ℕ) : ℚ :=
  (1 - scoreAt vs i) + (j : ℚ) * (1/10) * scoreAt vs i

/-- All length-`k` lists of pairwise-distinct elements drawn from `pool`
(the injective choices enumerated for the brute-force matching check). -/
def picks : ℕ → List ℕ → List (List ℕ)
  | 0, _ => [[]]
  | k + 1, pool => pool.flatMap (fun c => (picks k (pool.erase c)).map (c :: ·))

/-- All maximal matchings between rows `0..n-1` and columns `0..m-1`,
each as a list of (row, column) pairs of size `min n m`; the brute-force
search space against which the solver's optimality is checked. -/
def allMatchings (n m : ℕ) : List (List (ℕ × ℕ)) :=
  if n ≤ m then
    (picks n (List.range m)).map (fun cs => (List.range n).zip cs)
  else
    (picks m (List.range n)).map (fun rs => rs.zip (List.range m))

/-- The total cost of a matching under a cost matrix `c`. -/
def matchCost (c : ℕ → ℕ → ℚ) (M : List (ℕ × ℕ)) : ℚ :=
  (M.map (fun p => c p.1 p.2)).sum

/-- First element of the list minimizing `f` (ties keep the earlier one). -/
def argminBy (f : List (ℕ × ℕ) → ℚ) : List (List (ℕ × ℕ)) → Option (List (ℕ × ℕ))
  | [] => none
  | x :: xs => some (xs.foldl (fun b y => if f y < f b then y else b) x)

/-- Modelled from the spec: `scipy.optimize.linear_sum_assignment` is a
library call, not code of this repository; per its documented contract it
returns a matching of size `min n m` of minimum total cost over the cost
matrix.  Modelled as the brute-force minimizer over `allMatchings`. -/
def linear_sum_assignment (n m : ℕ) (c : ℕ → ℕ → ℚ) : List (ℕ × ℕ) :=
  (argminBy (matchCost c) (allMatchings n m)).getD []

/-- The (row, column) matching computed inside `optimize_schedule`
(line 59): one column per entry of `available_slots`. -/
def schedule_matching (vs : List ScoredVehicle) (slots : List ℕ) :
    List (ℕ × ℕ) :=
  linear_sum_assignment vs.length slots.length (cost_matrix vs)

/-- `vehicle_data.iloc[i]['vehicle_id']` for the solver's row indices. -/
def vehicleIdAt (vs : List ScoredVehicle) (i : ℕ) : ℕ :=
  ((vs.get? i).map ScoredVehicle.vehicle_id).getD 0

/-- `vehicle_data.iloc[i]['maintenance_cluster']` for the solver's rows. -/
def clusterAt (vs : List ScoredVehicle) (i : ℕ) : ℤ :=
  ((vs.get? i).map ScoredVehicle.maintenance_cluster).getD 0

/-- `MaintenanceOptimizer.optimize_schedule` (lines 42-72): builds the cost
matrix, solves the assignment, and keeps the pairs with `j < n_slots`
(the guard of line 64).  The `mechanics_per_slot` argument is accepted, as
in the source, and never read. -/
def optimize_schedule (vs : List ScoredVehicle) (slots : List ℕ)
    (mechanics_per_slot : ℤ) : List Assignment :=
  let n_slots := slots.length
  (schedule_matching vs slots).filterMap (fun p =>
    if p.2 < n_slots then
      some { vehicle := vehicleIdAt vs p.1
             time_slot := slots.getD p.2 0
             priority_score := scoreAt vs p.1
             maintenance_cluster := clusterAt vs p.1 }
    else none)



/-- The minimum of a non-empty column (`0` on the empty list); used only to
state the spec's extremal-value properties, the source computes no minimum. -/
def seriesMin (l : List ℕ) : ℕ :=
  match l with
  | [] => 0
  | x :: xs => xs.foldr min x

/-- The spec's FeatureNormalizer min-max path, stated from the spec's words
for comparison with the code's `normalize`: `(value - min) / (max - min)`,
and `0` for every vehicle when the column is degenerate (`max == min`). -/
def spec_minmax (l : List ℕ) (value : ℕ) : ℚ :=
  if seriesMax l = seriesMin l then 0
  else ((value : ℚ) - (seriesMin l : ℚ)) / ((seriesMax l : ℚ) - (seriesMin l : ℚ))

/-- The spec's priority-score formula, stated from the spec's words for
comparison with the code's `priorityScore`: min-max normalized fault and age
terms, raw critical term. -/
def spec_priority_score (vs : List Vehicle) (v : Vehicle) : ℚ :=
  (2/5) * spec_minmax (faultsCol vs) v.total_faults
    + (3/10) * spec_minmax (ageCol vs) v.days_since_last_maintenance
    + (3/10) * (v.critical_system_faults : ℚ)

/-- The full pipeline of `main`: score, cluster, schedule.  Modelled from the
spec: sklearn's `KMeans(n_clusters=3, random_state=42)` is a library call,
not code of this repository; with its seed fixed at construction it is, per
the spec, a deterministic function of the feature rows, so the pipeline is
parametrized over that function. -/
def run_pipeline (cluster : List (Vehicle × Option ℚ) → List ℤ)
    (vs : List Vehicle) (slots : List ℕ) (mechanics_per_slot : ℤ) :
    List ℤ × List Assignment :=
  let scored := calculate_priority_score vs
  let clusters := cluster scored
  let svs := (scored.zip clusters).map (fun p =>
    { vehicle_id := p.1.1.vehicle_id
      priority_score := p.1.2.getD 0
      maintenance_cluster := p.2 : ScoredVehicle })
  (clusters, optimize_schedule svs slots mechanics_per_slot)

theorem picks_length {k : ℕ} {pool l : List ℕ} (h : l ∈ picks k pool) :
    l.length = k := by
  induction k generalizing pool l with
  | zero => simp [picks] at h; simp [h]
  | succ k ih =>
    simp only [picks, List.mem_flatMap, List.mem_map] at h
    obtain ⟨c, _, t, ht, rfl⟩ := h
    simp [ih ht]

theorem picks_subset {k : ℕ} {pool l : List ℕ} (h : l ∈ picks k pool) :
    ∀ x ∈ l, x ∈ pool := by
  induction k generalizing pool l with
  | zero => simp [picks] at h; simp [h]
  | succ k ih =>
    simp only [picks, List.mem_flatMap, List.mem_map] at h
    obtain ⟨c, hc, t, ht, rfl⟩ := h
    intro x hx
    rcases List.mem_cons.1 hx with rfl | hx
    · exact hc
    · exact List.mem_of_mem_erase (ih ht x hx)

theorem picks_nodup {k : ℕ} {pool l : List ℕ} (hp : pool.Nodup)
    (h : l ∈ picks k pool) : l.Nodup := by
  induction k generalizing pool l with
  | zero => simp [picks] at h; simp [h]
  | succ k ih =>
    simp only [picks, List.mem_flatMap, List.mem_map] at h
    obtain ⟨c, hc, t, ht, rfl⟩ := h
    refine List.nodup_cons.2 ⟨fun hct => ?_, ih (hp.erase c) ht⟩
    exact (hp.not_mem_erase) (picks_subset ht c hct)

theorem picks_exists {k : ℕ} {pool : List ℕ} (h : k ≤ pool.length) :
    ∃ l, l ∈ picks k pool := by
  induction k generalizing pool with
  | zero => exact ⟨[], by simp [picks]⟩
  | succ k ih =>
    match pool, h with
    | c :: rest, h =>
      have hk : k ≤ ((c :: rest).erase c).length := by
        rw [List.erase_cons_head]
        exact Nat.le_of_succ_le_succ h
      obtain ⟨t, ht⟩ := ih hk
      refine ⟨c :: t, ?_⟩
      simp only [picks, List.mem_flatMap, List.mem_map]
      exact ⟨c, List.mem_cons_self c rest, t, ht, rfl⟩

theorem foldl_argmin_mem (f : List (ℕ × ℕ) → ℚ) (b : List (ℕ × ℕ))
    (xs : List (List (ℕ × ℕ))) :
    xs.foldl (fun b y => if f y < f b then y else b) b ∈ b :: xs := by
  induction xs generalizing b with
  | nil => simp
  | cons x xs ih =>
    simp only [List.foldl_cons]
    by_cases hx : f x < f b <;> simp only [hx, if_true, if_false]
    · rcases List.mem_cons.1 (ih x) with h' | h'
      · rw [h']
        exact List.mem_cons_of_mem _ (List.mem_cons_self _ _)
      · exact List.mem_cons_of_mem _ (List.mem_cons_of_mem _ h')
    · rcases List.mem_cons.1 (ih b) with h' | h'
      · rw [h']
        exact List.mem_cons_self _ _
      · exact List.mem_cons_of_mem _ (List.mem_cons_of_mem _ h')

theorem foldl_argmin_le (f : List (ℕ × ℕ) → ℚ) (b : List (ℕ × ℕ))
    (xs : List (List (ℕ × ℕ))) :
    ∀ y ∈ b :: xs, f (xs.foldl (fun b y => if f y < f b then y else b) b) ≤ f y := by
  induction xs generalizing b with
  | nil => intro y hy; simp at hy; simp [hy]
  | cons x xs ih =>
    intro y hy
    simp only [List.foldl_cons]
    by_cases hx : f x < f b <;> simp only [hx, if_true, if_false]
    · rcases List.mem_cons.1 hy with rfl | hy'
      · exact le_of_lt (lt_of_le_of_lt (ih x x (List.mem_cons_self _ _)) hx)
      · exact ih x y hy'
    · rcases List.mem_cons.1 hy with rfl | hy'
      · exact ih y y (List.mem_cons_self _ _)
      · rcases List.mem_cons.1 hy' with rfl | hy''
        · exact le_trans (ih b b (List.mem_cons_self _ _)) (le_of_not_lt hx)
        · exact ih b y (List.mem_cons_of_mem _ hy'')


theorem allMatchings_exists (n m : ℕ) : ∃ M, M ∈ allMatchings n m := by
  unfold allMatchings
  by_cases h : n ≤ m <;> simp only [h, if_true, if_false]
  · obtain ⟨l, hl⟩ := @picks_exists n (List.range m) (by simpa using h)
    exact ⟨_, List.mem_map_of_mem _ hl⟩
  · obtain ⟨l, hl⟩ := @picks_exists m (List.range n)
      (by simp only [List.length_range]; omega)
    exact ⟨_, List.mem_map_of_mem _ hl⟩

theorem mem_allMatchings_length {n m : ℕ} {M : List (ℕ × ℕ)}
    (h : M ∈ allMatchings n m) : M.length = min n m := by
  unfold allMatchings at h
  by_cases hnm : n ≤ m <;> simp only [hnm, if_true, if_false] at h
  · obtain ⟨cs, hcs, rfl⟩ := List.mem_map.1 h
    simp only [List.length_zip, List.length_range, picks_length hcs]
    omega
  · obtain ⟨rs, hrs, rfl⟩ := List.mem_map.1 h
    simp only [List.length_zip, List.length_range, picks_length hrs]
    omega

theorem mem_allMatchings_snd_lt {n m : ℕ} {M : List (ℕ × ℕ)}
    (h : M ∈ allMatchings n m) : ∀ p ∈ M, p.2 < m := by
  unfold allMatchings at h
  by_cases hnm : n ≤ m <;> simp only [hnm, if_true, if_false] at h
  · obtain ⟨cs, hcs, rfl⟩ := List.mem_map.1 h
    intro p hp
    exact List.mem_range.1 (picks_subset hcs _ (List.of_mem_zip hp).2)
  · obtain ⟨rs, hrs, rfl⟩ := List.mem_map.1 h
    intro p hp
    exact List.mem_range.1 (List.of_mem_zip hp).2

theorem mem_allMatchings_snd_nodup {n m : ℕ} {M : List (ℕ × ℕ)}
    (h : M ∈ allMatchings n m) : (M.map Prod.snd).Nodup := by
  unfold allMatchings at h
  by_cases hnm : n ≤ m <;> simp only [hnm, if_true, if_false] at h
  · obtain ⟨cs, hcs, rfl⟩ := List.mem_map.1 h
    rw [List.map_snd_zip _ _ (by simp [picks_length hcs])]
    exact picks_nodup (List.nodup_range _) hcs
  · obtain ⟨rs, hrs, rfl⟩ := List.mem_map.1 h
    rw [List.map_snd_zip _ _ (by simp [picks_length hrs])]
    exact List.nodup_range _

theorem linear_sum_assignment_mem (n m : ℕ) (c : ℕ → ℕ → ℚ) :
    linear_sum_assignment n m c ∈ allMatchings n m := by
  unfold linear_sum_assignment
  rcases hall : allMatchings n m with _ | ⟨x, xs⟩
  · obtain ⟨M, hM⟩ := allMatchings_exists n m
    rw [hall] at hM
    simp at hM
  · simp only [argminBy, Option.getD_some]
    exact foldl_argmin_mem (matchCost c) x xs

theorem linear_sum_assignment_min (n m : ℕ) (c : ℕ → ℕ → ℚ) :
    ∀ M ∈ allMatchings n m,
      matchCost c (linear_sum_assignment n m c) ≤ matchCost c M := by
  unfold linear_sum_assignment
  rcases hall : allMatchings n m with _ | ⟨x, xs⟩
  · intro M hM
    simp at hM
  · simp only [argminBy, Option.getD_some]
    exact foldl_argmin_le (matchCost c) x xs

theorem schedule_matching_mem (vs : List ScoredVehicle) (slots : List ℕ) :
    schedule_matching vs slots ∈ allMatchings vs.length slots.length :=
  linear_sum_assignment_mem _ _ _

theorem filterMap_if_all {α β : Type} (g : α → β) (q : α → Prop)
    [DecidablePred q] (l : List α) (h : ∀ p ∈ l, q p) :
    (l.filterMap (fun p => if q p then some (g p) else none)) = l.map g := by
  induction l with
  | nil => rfl
  | cons x xs ih =>
    rw [List.filterMap_cons, List.map_cons, if_pos (h x (List.mem_cons_self _ _)),
      ih (fun p hp => h p (List.mem_cons_of_mem _ hp))]

theorem optimize_schedule_eq (vs : List ScoredVehicle) (slots : List ℕ)
    (k : ℤ) :
    optimize_schedule vs slots k = (schedule_matching vs slots).map (fun p =>
      { vehicle := vehicleIdAt vs p.1
        time_slot := slots.getD p.2 0
        priority_score := scoreAt vs p.1
        maintenance_cluster := clusterAt vs p.1 }) := by
  unfold optimize_schedule
  exact filterMap_if_all _ _ _
    (mem_allMatchings_snd_lt (schedule_matching_mem vs slots))


theorem allMatchings_left_zero (m : ℕ) : allMatchings 0 m = [[]] := by
  unfold allMatchings
  rw [if_pos (Nat.zero_le m)]
  simp [picks]

theorem allMatchings_right_zero (n : ℕ) : allMatchings n 0 = [[]] := by
  unfold allMatchings
  rcases Nat.eq_zero_or_pos n with rfl | hpos
  · rw [if_pos (Nat.le_refl 0)]
    simp [picks]
  · rw [if_neg (by omega)]
    simp [picks]

theorem schedule_matching_nil_left (slots : List ℕ) :
    schedule_matching [] slots = [] := by
  show (argminBy _ (allMatchings 0 slots.length)).getD [] = []
  rw [allMatchings_left_zero]
  rfl

theorem schedule_matching_nil_right (vs : List ScoredVehicle) :
    schedule_matching vs [] = [] := by
  show (argminBy _ (allMatchings vs.length 0)).getD [] = []
  rw [allMatchings_right_zero]
  rfl

/-- C10: `optimize_schedule` ignores `mechanics_per_slot` entirely: the
schedule is identical for any two values of the argument, and it always has
exactly `min (number of vehicles) (number of slots)` assignments. -/
theorem optimize_schedule_mechanics_independent (vs : List ScoredVehicle)
    (slots : List ℕ) (k k' : ℤ) :
    optimize_schedule vs slots k = optimize_schedule vs slots k' ∧
    (optimize_schedule vs slots k).length = min vs.length slots.length := by
  refine ⟨rfl, ?_⟩
  rw [optimize_schedule_eq, List.length_map]
  exact mem_allMatchings_length (schedule_matching_mem vs slots)

/-- C1 (amended): the matching computed by `optimize_schedule` has one column
per entry of `available_slots` (no capacity expansion), is a maximal matching
of size `min (number of vehicles) (number of slots)`, and its total cost over
the cost matrix `(1 - p_i) + j * 0.1 * p_i` is minimal among all brute-force
enumerated matchings of that size. -/
theorem schedule_matching_optimal (vs : List ScoredVehicle) (slots : List ℕ) :
    schedule_matching vs slots ∈ allMatchings vs.length slots.length ∧
    ∀ M ∈ allMatchings vs.length slots.length,
      matchCost (cost_matrix vs) (schedule_matching vs slots) ≤
        matchCost (cost_matrix vs) M :=
  ⟨schedule_matching_mem vs slots,
   linear_sum_assignment_min vs.length slots.length (cost_matrix vs)⟩

/-- Witness for `schedule_matching_optimal` at a concrete input. -/
theorem schedule_matching_optimal_witness :
    matchCost (cost_matrix [⟨1,(1:ℚ)/2,0⟩])
        (schedule_matching [⟨1,(1:ℚ)/2,0⟩] [7]) ≤
      matchCost (cost_matrix [⟨1,(1:ℚ)/2,0⟩]) [(0,0)] :=
  (schedule_matching_optimal [⟨1,(1:ℚ)/2,0⟩] [7]).2 [(0,0)] (by decide)

/-- C1 counterexample: with 2 vehicles and one slot of declared capacity 2
there are 2 slot instances under the claim's reading, so the matching should
have size `min 2 2 = 2`; the code produces 1 assignment. -/
theorem schedule_size_not_slot_instances :
    (optimize_schedule [⟨1,(9:ℚ)/10,0⟩, ⟨2,(1:ℚ)/2,0⟩] [100] 2).length = 1 ∧
    (1 : ℕ) ≠ min 2 (1 * 2) := by
  constructor
  · rw [optimize_schedule_eq, List.length_map,
      mem_allMatchings_length (schedule_matching_mem _ _)]
    rfl
  · decide

/-- C2 (amended): `optimize_schedule` performs no capacity expansion: the
matching has one column per `available_slots` entry, each column index is
below the number of slots, and no slot-list entry receives more than one
assignment (the column indices of the matching are pairwise distinct). -/
theorem optimize_schedule_per_slot_at_most_one (vs : List ScoredVehicle)
    (slots : List ℕ) :
    ((schedule_matching vs slots).map Prod.snd).Nodup ∧
    ∀ p ∈ schedule_matching vs slots, p.2 < slots.length :=
  ⟨mem_allMatchings_snd_nodup (schedule_matching_mem vs slots),
   fun p hp => mem_allMatchings_snd_lt (schedule_matching_mem vs slots) p hp⟩

/-- Witness for `optimize_schedule_per_slot_at_most_one`. -/
theorem optimize_schedule_per_slot_at_most_one_witness :
    (0, 0) ∈ schedule_matching [⟨1,(1:ℚ)/2,0⟩] [7] ∧ (0 : ℕ) < 1 := by
  have hmem : schedule_matching [⟨1,(1:ℚ)/2,0⟩] [7] ∈ allMatchings 1 1 :=
    schedule_matching_mem _ _
  have hall : allMatchings 1 1 = [[(0,0)]] := by decide
  rw [hall] at hmem
  have hm : schedule_matching [⟨1,(1:ℚ)/2,0⟩] [7] = [(0,0)] := by
    simpa using hmem
  refine ⟨by rw [hm]; exact List.mem_cons_self _ _, ?_⟩
  exact (optimize_schedule_per_slot_at_most_one [⟨1,(1:ℚ)/2,0⟩] [7]).2
    (0,0) (by rw [hm]; exact List.mem_cons_self _ _)

/-- C2 counterexample: 3 vehicles and one slot of declared capacity 3: under
the expansion reading the cost matrix has 3 columns and all 3 vehicles are
assigned; the code produces a single assignment. -/
theorem no_slot_expansion_counterexample :
    (optimize_schedule [⟨1,(9:ℚ)/10,0⟩, ⟨2,(1:ℚ)/2,0⟩, ⟨3,(1:ℚ)/10,0⟩]
        [100] 3).length = 1 ∧
    (1 : ℕ) ≠ 3 := by
  constructor
  · rw [optimize_schedule_eq, List.length_map,
      mem_allMatchings_length (schedule_matching_mem _ _)]
    rfl
  · decide

/-- C6 (amended): `optimize_schedule` performs no input validation: an empty
vehicle collection or an empty slot list yields an empty schedule without any
error, and the `mechanics_per_slot` argument (in particular a non-positive
one) never influences the result. -/
theorem optimize_schedule_no_validation (vs : List ScoredVehicle)
    (slots : List ℕ) (k k' : ℤ) :
    optimize_schedule [] slots k = [] ∧
    optimize_schedule vs [] k = [] ∧
    optimize_schedule vs slots k = optimize_schedule vs slots k' := by
  refine ⟨?_, ?_, rfl⟩
  · rw [optimize_schedule_eq, schedule_matching_nil_left]
    rfl
  · rw [optimize_schedule_eq, schedule_matching_nil_right]
    rfl

/-- C6 counterexample: with one vehicle, one slot and the non-positive
capacity `-3` the code returns a complete one-row schedule instead of
reporting a validation error and aborting. -/
theorem no_input_validation_counterexample :
    optimize_schedule [⟨1,(1:ℚ)/2,0⟩] [7] (-3) =
      [{ vehicle := 1, time_slot := 7, priority_score := (1:ℚ)/2,
         maintenance_cluster := 0 }] ∧
    optimize_schedule ([] : List ScoredVehicle) [] 0 = [] := by
  constructor
  · have hmem : schedule_matching [⟨1,(1:ℚ)/2,0⟩] [7] ∈ allMatchings 1 1 :=
      schedule_matching_mem _ _
    have hall : allMatchings 1 1 = [[(0,0)]] := by decide
    rw [hall] at hmem
    have hm : schedule_matching [⟨1,(1:ℚ)/2,0⟩] [7] = [(0,0)] := by
      simpa using hmem
    rw [optimize_schedule_eq, hm]
    rfl
  · rw [optimize_schedule_eq, schedule_matching_nil_left]
    rfl
/-- C7: three vehicles with priority scores 0.9, 0.5, 0.1 and three
unit-capacity slots at indices 0, 1, 2: the schedule assigns 0.9 to slot
index 0, 0.5 to index 1 and 0.1 to index 2, and every other maximal matching
has strictly greater total cost under the cost formula. -/
theorem scenario_priority_order :
    optimize_schedule [⟨1,(9:ℚ)/10,0⟩,⟨2,(1:ℚ)/2,0⟩,⟨3,(1:ℚ)/10,0⟩]
        [100,101,102] 1 =
      [⟨1,100,(9:ℚ)/10,0⟩,⟨2,101,(1:ℚ)/2,0⟩,⟨3,102,(1:ℚ)/10,0⟩] ∧
    ∀ M ∈ allMatchings 3 3, M ≠ [(0,0),(1,1),(2,2)] →
      matchCost (cost_matrix [⟨1,(9:ℚ)/10,0⟩,⟨2,(1:ℚ)/2,0⟩,⟨3,(1:ℚ)/10,0⟩])
          [(0,0),(1,1),(2,2)] <
        matchCost (cost_matrix [⟨1,(9:ℚ)/10,0⟩,⟨2,(1:ℚ)/2,0⟩,⟨3,(1:ℚ)/10,0⟩])
          M := by
  have h0 : scoreAt [⟨1,(9:ℚ)/10,0⟩,⟨2,(1:ℚ)/2,0⟩,⟨3,(1:ℚ)/10,0⟩] 0 =
      9/10 := rfl
  have h1 : scoreAt [⟨1,(9:ℚ)/10,0⟩,⟨2,(1:ℚ)/2,0⟩,⟨3,(1:ℚ)/10,0⟩] 1 =
      1/2 := rfl
  have h2 : scoreAt [⟨1,(9:ℚ)/10,0⟩,⟨2,(1:ℚ)/2,0⟩,⟨3,(1:ℚ)/10,0⟩] 2 =
      1/10 := rfl
  have hall : allMatchings 3 3 =
      [[(0,0),(1,1),(2,2)], [(0,0),(1,2),(2,1)], [(0,1),(1,0),(2,2)],
       [(0,1),(1,2),(2,0)], [(0,2),(1,0),(2,1)], [(0,2),(1,1),(2,0)]] := by
    decide
  have hstrict : ∀ M ∈ allMatchings 3 3, M ≠ [(0,0),(1,1),(2,2)] →
      matchCost (cost_matrix [⟨1,(9:ℚ)/10,0⟩,⟨2,(1:ℚ)/2,0⟩,⟨3,(1:ℚ)/10,0⟩])
          [(0,0),(1,1),(2,2)] <
        matchCost (cost_matrix [⟨1,(9:ℚ)/10,0⟩,⟨2,(1:ℚ)/2,0⟩,⟨3,(1:ℚ)/10,0⟩])
          M := by
    rw [hall]
    intro M hM hne
    simp only [List.mem_cons, List.not_mem_nil, or_false] at hM
    rcases hM with rfl | rfl | rfl | rfl | rfl | rfl
    · exact absurd rfl hne
    · norm_num [matchCost, cost_matrix, h0, h1, h2]
    · norm_num [matchCost, cost_matrix, h0, h1, h2]
    · norm_num [matchCost, cost_matrix, h0, h1, h2]
    · norm_num [matchCost, cost_matrix, h0, h1, h2]
    · norm_num [matchCost, cost_matrix, h0, h1, h2]
  have hmem : schedule_matching [⟨1,(9:ℚ)/10,0⟩,⟨2,(1:ℚ)/2,0⟩,⟨3,(1:ℚ)/10,0⟩]
      [100,101,102] ∈ allMatchings 3 3 := schedule_matching_mem _ _
  have hmin : ∀ M ∈ allMatchings 3 3,
      matchCost (cost_matrix [⟨1,(9:ℚ)/10,0⟩,⟨2,(1:ℚ)/2,0⟩,⟨3,(1:ℚ)/10,0⟩])
          (schedule_matching [⟨1,(9:ℚ)/10,0⟩,⟨2,(1:ℚ)/2,0⟩,⟨3,(1:ℚ)/10,0⟩]
            [100,101,102]) ≤
        matchCost (cost_matrix [⟨1,(9:ℚ)/10,0⟩,⟨2,(1:ℚ)/2,0⟩,⟨3,(1:ℚ)/10,0⟩])
          M :=
    linear_sum_assignment_min 3 3
      (cost_matrix [⟨1,(9:ℚ)/10,0⟩,⟨2,(1:ℚ)/2,0⟩,⟨3,(1:ℚ)/10,0⟩])
  have hid : schedule_matching [⟨1,(9:ℚ)/10,0⟩,⟨2,(1:ℚ)/2,0⟩,⟨3,(1:ℚ)/10,0⟩]
      [100,101,102] = [(0,0),(1,1),(2,2)] := by
    by_contra hne
    exact absurd
      (hmin [(0,0),(1,1),(2,2)] (by rw [hall]; exact List.mem_cons_self _ _))
      (not_le.2 (hstrict _ hmem hne))
  constructor
  · rw [optimize_schedule_eq, hid]
    rfl
  · exact hstrict

/-- Witness for `scenario_priority_order` at the swapped matching. -/
theorem scenario_priority_order_witness :
    matchCost (cost_matrix [⟨1,(9:ℚ)/10,0⟩,⟨2,(1:ℚ)/2,0⟩,⟨3,(1:ℚ)/10,0⟩])
        [(0,0),(1,1),(2,2)] <
      matchCost (cost_matrix [⟨1,(9:ℚ)/10,0⟩,⟨2,(1:ℚ)/2,0⟩,⟨3,(1:ℚ)/10,0⟩])
        [(0,1),(1,0),(2,2)] :=
  (scenario_priority_order.2) [(0,1),(1,0),(2,2)] (by decide) (by decide)

theorem le_seriesMax {l : List ℕ} {x : ℕ} (h : x ∈ l) : x ≤ seriesMax l := by
  induction l with
  | nil => simp at h
  | cons y ys ih =>
    rcases List.mem_cons.1 h with rfl | h'
    · exact le_max_left _ _
    · exact le_trans (ih h') (le_max_right _ _)

theorem seriesMax_const {l : List ℕ} {c : ℕ} (h : ∀ x ∈ l, x = c) :
    l = [] ∨ seriesMax l = c := by
  induction l with
  | nil => exact Or.inl rfl
  | cons y ys ih =>
    right
    have hy : y = c := h y (List.mem_cons_self _ _)
    rcases ih (fun x hx => h x (List.mem_cons_of_mem _ hx)) with rfl | h'
    · show max y (seriesMax []) = c
      simp [seriesMax, hy]
    · show max y (seriesMax ys) = c
      rw [hy, h', max_self]

/-- C3 counterexample: for vehicles with fault counts 1 and 2 and equal ages,
the code gives the first vehicle the score 1/2, while the spec's min-max
formula gives it 0. -/
theorem priority_score_not_minmax_counterexample :
    calculate_priority_score [⟨1,1,1,0⟩, ⟨2,2,1,0⟩] =
      [(⟨1,1,1,0⟩, some ((1:ℚ)/2)), (⟨2,2,1,0⟩, some ((7:ℚ)/10))] ∧
    spec_priority_score [⟨1,1,1,0⟩, ⟨2,2,1,0⟩] ⟨1,1,1,0⟩ = 0 ∧
    ((1:ℚ)/2) ≠ 0 := by
  have hf : seriesMax (faultsCol [⟨1,1,1,0⟩, ⟨2,2,1,0⟩]) = 2 := by decide
  have ha : seriesMax (ageCol [⟨1,1,1,0⟩, ⟨2,2,1,0⟩]) = 1 := by decide
  have hfm : seriesMin (faultsCol [⟨1,1,1,0⟩, ⟨2,2,1,0⟩]) = 1 := by decide
  have ham : seriesMin (ageCol [⟨1,1,1,0⟩, ⟨2,2,1,0⟩]) = 1 := by decide
  refine ⟨?_, ?_, by norm_num⟩
  · norm_num [calculate_priority_score, priorityScore, normalize, hf, ha]
  · norm_num [spec_priority_score, spec_minmax, hf, ha, hfm, ham]

/-- C3 (amended): for a collection whose fault and age columns have nonzero
maxima, every vehicle is paired with the score
`0.4 * faults/max_faults + 0.3 * age/max_age + 0.3 * critical` — division by
the column maximum, not min-max scaling. -/
theorem calculate_priority_score_formula (vs : List Vehicle) (v : Vehicle)
    (hv : v ∈ vs) (hf : seriesMax (faultsCol vs) ≠ 0)
    (ha : seriesMax (ageCol vs) ≠ 0) :
    (v, some ((2/5) * ((v.total_faults : ℚ) / (seriesMax (faultsCol vs) : ℚ))
      + (3/10) * ((v.days_since_last_maintenance : ℚ) /
          (seriesMax (ageCol vs) : ℚ))
      + (3/10) * (v.critical_system_faults : ℚ))) ∈
      calculate_priority_score vs := by
  unfold calculate_priority_score
  simp only [List.mem_map]
  exact ⟨v, hv, by simp [hf, ha, priorityScore, normalize]⟩

/-- Witness for `calculate_priority_score_formula` at a concrete fleet. -/
theorem calculate_priority_score_formula_witness :
    ((⟨1,1,1,0⟩ : Vehicle),
      some ((2/5) * (((1:ℕ) : ℚ) / ((2:ℕ) : ℚ))
        + (3/10) * (((1:ℕ) : ℚ) / ((1:ℕ) : ℚ))
        + (3/10) * ((0:ℕ) : ℚ))) ∈
      calculate_priority_score [⟨1,1,1,0⟩, ⟨2,2,1,0⟩] :=
  calculate_priority_score_formula [⟨1,1,1,0⟩, ⟨2,2,1,0⟩] ⟨1,1,1,0⟩
    (by decide) (by decide) (by decide)

/-- C4 counterexample: the column [1, 2] has two distinct values, yet the
code's normalization sends its minimum 1 to 1/2, not to 0. -/
theorem norm_min_not_zero_counterexample :
    faultsCol [⟨1,1,5,0⟩, ⟨2,2,9,0⟩] = [1, 2] ∧
    seriesMin [1, 2] = 1 ∧ seriesMax [1, 2] = 2 ∧
    normalize [1, 2] 1 = (1:ℚ)/2 ∧ ((1:ℚ)/2) ≠ 0 := by
  have h : seriesMax [1, 2] = 2 := by decide
  refine ⟨by decide, by decide, by decide, ?_, by norm_num⟩
  norm_num [normalize, h]

/-- C4 (amended): with at least two distinct values in a column, the code's
normalization sends the column maximum to exactly 1; the column minimum goes
to `min/max`, which is 0 exactly when the minimum itself is 0. -/
theorem normalize_extremes (l : List ℕ) (a b : ℕ) (ha : a ∈ l) (hb : b ∈ l)
    (hab : a ≠ b) :
    normalize l (seriesMax l) = 1 ∧
    normalize l (seriesMin l) = (seriesMin l : ℚ) / (seriesMax l : ℚ) ∧
    (normalize l (seriesMin l) = 0 ↔ seriesMin l = 0) := by
  have hmax : seriesMax l ≠ 0 := by
    intro h0
    have ha' := le_seriesMax ha
    have hb' := le_seriesMax hb
    rw [h0] at ha' hb'
    exact hab (by omega)
  have hmaxQ : ((seriesMax l : ℕ) : ℚ) ≠ 0 := Nat.cast_ne_zero.2 hmax
  refine ⟨?_, rfl, ?_⟩
  · unfold normalize
    exact div_self hmaxQ
  · unfold normalize
    rw [div_eq_zero_iff]
    constructor
    · rintro (h | h)
      · exact Nat.cast_eq_zero.1 h
      · exact absurd h hmaxQ
    · intro h
      exact Or.inl (Nat.cast_eq_zero.2 h)

/-- Witness for `normalize_extremes` on the column [0, 3]. -/
theorem normalize_extremes_witness :
    normalize [0, 3] (seriesMax [0, 3]) = 1 ∧
    normalize [0, 3] (seriesMin [0, 3]) =
      (seriesMin [0, 3] : ℚ) / (seriesMax [0, 3] : ℚ) ∧
    (normalize [0, 3] (seriesMin [0, 3]) = 0 ↔ seriesMin [0, 3] = 0) :=
  normalize_extremes [0, 3] 0 3 (by decide) (by decide) (by decide)

/-- C5 counterexample: on the constant column [5, 5] the code's normalized
value is 1 for every vehicle, not 0 as the degenerate-column rule claims. -/
theorem constant_column_counterexample :
    faultsCol [⟨1,5,1,0⟩, ⟨2,5,2,0⟩] = [5, 5] ∧
    normalize [5, 5] 5 = 1 ∧ (1:ℚ) ≠ 0 := by
  have h : seriesMax [5, 5] = 5 := by decide
  refine ⟨by decide, ?_, by norm_num⟩
  norm_num [normalize, h]

/-- C5 (amended): on a constant fault column the code does not yield 0: if
the constant is nonzero every normalized value is 1 (the feature contributes
its full weight 0.4 to every score), and if the constant is 0 every score is
NaN (`none`), the division being 0/0 — in neither case is there a
zero-contribution rule. -/
theorem constant_column_behavior (vs : List Vehicle) (c : ℕ)
    (hc : ∀ v ∈ vs, v.total_faults = c) :
    (c ≠ 0 → ∀ v ∈ vs, normalize (faultsCol vs) v.total_faults = 1) ∧
    (c = 0 → ∀ p ∈ calculate_priority_score vs, p.2 = none) := by
  constructor
  · intro hc0 v hv
    have hmem : v.total_faults ∈ faultsCol vs := List.mem_map_of_mem _ hv
    have hall : ∀ x ∈ faultsCol vs, x = c := by
      intro x hx
      obtain ⟨w, hw, rfl⟩ := List.mem_map.1 hx
      exact hc w hw
    rcases seriesMax_const hall with hnil | hmaxc
    · rw [hnil] at hmem
      simp at hmem
    · rw [hc v hv]
      unfold normalize
      rw [hmaxc]
      exact div_self (Nat.cast_ne_zero.2 hc0)
  · intro hc0 p hp
    have hall : ∀ x ∈ faultsCol vs, x = 0 := by
      intro x hx
      obtain ⟨w, hw, rfl⟩ := List.mem_map.1 hx
      rw [hc w hw, hc0]
    have hmax0 : seriesMax (faultsCol vs) = 0 := by
      rcases seriesMax_const hall with hnil | h0
      · rw [hnil]
        rfl
      · exact h0
    unfold calculate_priority_score at hp
    simp only [List.mem_map] at hp
    obtain ⟨w, hw, rfl⟩ := hp
    simp [hmax0]

/-- Witness for `constant_column_behavior` on a one-vehicle fleet. -/
theorem constant_column_behavior_witness :
    normalize (faultsCol [⟨1,5,1,0⟩]) (5 : ℕ) = 1 := by
  have h := (constant_column_behavior [⟨1,5,1,0⟩] 5 (by decide)).1
    (by decide) ⟨1,5,1,0⟩ (by decide)
  exact h

theorem seriesMax_append (a b : List ℕ) :
    seriesMax (a ++ b) = max (seriesMax a) (seriesMax b) := by
  induction a with
  | nil => simp [seriesMax]
  | cons x xs ih =>
    show max x (seriesMax (xs ++ b)) = max (max x (seriesMax xs)) (seriesMax b)
    rw [ih, max_assoc]

theorem seriesMax_middle (a b : List ℕ) (x : ℕ) :
    seriesMax (a ++ x :: b) = max (max (seriesMax a) (seriesMax b)) x := by
  rw [seriesMax_append]
  show max (seriesMax a) (max x (seriesMax b)) = _
  rw [max_comm x (seriesMax b), ← max_assoc]

theorem div_max_mono (f f' m : ℕ) (h : f ≤ f') :
    (f : ℚ) / ((max m f : ℕ) : ℚ) ≤ (f' : ℚ) / ((max m f' : ℕ) : ℚ) := by
  rcases le_or_lt f' m with hm | hm
  · rw [max_eq_left (le_trans h hm), max_eq_left hm]
    rcases Nat.eq_zero_or_pos m with rfl | hpos
    · have hf0 : f = 0 := by omega
      have hf'0 : f' = 0 := by omega
      simp [hf0, hf'0]
    · have hmQ : (0:ℚ) < (m:ℚ) := by exact_mod_cast hpos
      exact (div_le_div_right hmQ).2 (by exact_mod_cast h)
  · rw [max_eq_right (Nat.le_of_lt hm)]
    have hf'Q : (0:ℚ) < (f':ℚ) := by
      exact_mod_cast lt_of_le_of_lt (Nat.zero_le m) hm
    rw [div_self (ne_of_gt hf'Q)]
    apply div_le_one_of_le
    · exact_mod_cast Nat.le_max_right m f
    · positivity

/-- C8: a vehicle's priority score is monotonically non-decreasing in each of
its three raw counters when the other two counters and all other vehicles are
held fixed (stated on collections whose columns are not all-zero, where the
Python scores are defined rather than NaN). -/
theorem priority_score_monotone (l₁ l₂ : List Vehicle) (v : Vehicle)
    (hf : seriesMax (faultsCol (l₁ ++ v :: l₂)) ≠ 0)
    (ha : seriesMax (ageCol (l₁ ++ v :: l₂)) ≠ 0) :
    (∀ f', v.total_faults ≤ f' →
      priorityScore (l₁ ++ v :: l₂) v ≤
        priorityScore (l₁ ++ (⟨v.vehicle_id, f', v.days_since_last_maintenance,
            v.critical_system_faults⟩ : Vehicle) :: l₂)
          ⟨v.vehicle_id, f', v.days_since_last_maintenance,
            v.critical_system_faults⟩) ∧
    (∀ d', v.days_since_last_maintenance ≤ d' →
      priorityScore (l₁ ++ v :: l₂) v ≤
        priorityScore (l₁ ++ (⟨v.vehicle_id, v.total_faults, d',
            v.critical_system_faults⟩ : Vehicle) :: l₂)
          ⟨v.vehicle_id, v.total_faults, d', v.critical_system_faults⟩) ∧
    (∀ c', v.critical_system_faults ≤ c' →
      priorityScore (l₁ ++ v :: l₂) v ≤
        priorityScore (l₁ ++ (⟨v.vehicle_id, v.total_faults,
            v.days_since_last_maintenance, c'⟩ : Vehicle) :: l₂)
          ⟨v.vehicle_id, v.total_faults, v.days_since_last_maintenance, c'⟩) := by
  refine ⟨?_, ?_, ?_⟩
  · intro f' hf'
    have hage : ageCol (l₁ ++ (⟨v.vehicle_id, f', v.days_since_last_maintenance,
        v.critical_system_faults⟩ : Vehicle) :: l₂) = ageCol (l₁ ++ v :: l₂) := by
      simp [ageCol]
    have hfc : faultsCol (l₁ ++ v :: l₂) =
        faultsCol l₁ ++ v.total_faults :: faultsCol l₂ := by
      simp [faultsCol]
    have hfc' : faultsCol (l₁ ++ (⟨v.vehicle_id, f',
        v.days_since_last_maintenance, v.critical_system_faults⟩ : Vehicle)
          :: l₂) = faultsCol l₁ ++ f' :: faultsCol l₂ := by
      simp [faultsCol]
    have hkey : normalize (faultsCol (l₁ ++ v :: l₂)) v.total_faults ≤
        normalize (faultsCol (l₁ ++ (⟨v.vehicle_id, f',
          v.days_since_last_maintenance, v.critical_system_faults⟩ : Vehicle)
            :: l₂)) f' := by
      unfold normalize
      rw [hfc, hfc', seriesMax_middle, seriesMax_middle]
      exact div_max_mono _ _ _ hf'
    unfold priorityScore
    rw [hage]
    exact add_le_add_right
      (add_le_add_right (mul_le_mul_of_nonneg_left hkey (by norm_num)) _) _
  · intro d' hd'
    have hfaults : faultsCol (l₁ ++ (⟨v.vehicle_id, v.total_faults, d',
        v.critical_system_faults⟩ : Vehicle) :: l₂) =
        faultsCol (l₁ ++ v :: l₂) := by
      simp [faultsCol]
    have hac : ageCol (l₁ ++ v :: l₂) =
        ageCol l₁ ++ v.days_since_last_maintenance :: ageCol l₂ := by
      simp [ageCol]
    have hac' : ageCol (l₁ ++ (⟨v.vehicle_id, v.total_faults, d',
        v.critical_system_faults⟩ : Vehicle) :: l₂) =
        ageCol l₁ ++ d' :: ageCol l₂ := by
      simp [ageCol]
    have hkey : normalize (ageCol (l₁ ++ v :: l₂))
          v.days_since_last_maintenance ≤
        normalize (ageCol (l₁ ++ (⟨v.vehicle_id, v.total_faults, d',
          v.critical_system_faults⟩ : Vehicle) :: l₂)) d' := by
      unfold normalize
      rw [hac, hac', seriesMax_middle, seriesMax_middle]
      exact div_max_mono _ _ _ hd'
    unfold priorityScore
    rw [hfaults]
    exact add_le_add_right
      (add_le_add_left (mul_le_mul_of_nonneg_left hkey (by norm_num)) _) _
  · intro c' hc'
    have hfaults : faultsCol (l₁ ++ (⟨v.vehicle_id, v.total_faults,
        v.days_since_last_maintenance, c'⟩ : Vehicle) :: l₂) =
        faultsCol (l₁ ++ v :: l₂) := by
      simp [faultsCol]
    have hac : ageCol (l₁ ++ (⟨v.vehicle_id, v.total_faults,
        v.days_since_last_maintenance, c'⟩ : Vehicle) :: l₂) =
        ageCol (l₁ ++ v :: l₂) := by
      simp [ageCol]
    have hcast : (v.critical_system_faults : ℚ) ≤ (c' : ℚ) := by
      exact_mod_cast hc'
    unfold priorityScore
    rw [hfaults, hac]
    exact add_le_add_left (mul_le_mul_of_nonneg_left hcast (by norm_num)) _

/-- Witness for `priority_score_monotone`: raising the fault count from 1 to
2 in a two-vehicle fleet does not lower the score. -/
theorem priority_score_monotone_witness :
    priorityScore [⟨1,1,1,1⟩, ⟨2,1,1,0⟩] (⟨1,1,1,1⟩ : Vehicle) ≤
      priorityScore [⟨1,2,1,1⟩, ⟨2,1,1,0⟩] (⟨1,2,1,1⟩ : Vehicle) :=
  (priority_score_monotone [] [⟨2,1,1,0⟩] ⟨1,1,1,1⟩ (by decide) (by decide)).1
    2 (by decide)

/-- C9: the full pipeline (scoring, clustering with its fixed seed, schedule
optimization) is deterministic: two runs on equal vehicle collections and
equal slot lists produce identical cluster labels and an identical
schedule. -/
theorem pipeline_deterministic
    (cluster : List (Vehicle × Option ℚ) → List ℤ)
    (vs vs' : List Vehicle) (slots slots' : List ℕ) (k : ℤ)
    (hv : vs = vs') (hs : slots = slots') :
    run_pipeline cluster vs slots k = run_pipeline cluster vs' slots' k := by
  rw [hv, hs]

/-- Witness for `pipeline_deterministic` at a concrete run. -/
theorem pipeline_deterministic_witness :
    run_pipeline (fun rows => rows.map (fun _ => 0)) [⟨1,1,1,0⟩] [5] 1 =
      run_pipeline (fun rows => rows.map (fun _ => 0)) [⟨1,1,1,0⟩] [5] 1 :=
  pipeline_deterministic (fun rows => rows.map (fun _ => 0))
    [⟨1,1,1,0⟩] [⟨1,1,1,0⟩] [5] [5] 1 rfl rfl

end ATV
